import Mathlib

/-!
# Verification of the corner-kick simulation and optimizer

Shallow embedding of the corner-kick repository:

* `config.py` — the physical and geometric constants, as exact rationals
  (the cross-sectional area, which involves `π`, is a real).
* `soccer_physics.py` — the ball dynamics (gravity, drag, Magnus force),
  the two termination events (ground touch with downward direction,
  goal-line crossing inside the goal frame), and the outcome
  classification (`is_goal`, `is_near_post`, `flight_time`,
  `min_distance`).  The adaptive ODE solver of the external library is
  modelled at sample granularity: the solution trajectory is a list of
  `(time, position)` samples; the event scan walks the samples in order
  and terminates at the first sample where an event fires, exactly as the
  solver truncates its output at the first terminal event.  The concrete
  integrator standing in for the library solver is an explicit fixed-step
  scheme driven by the embedded `ball_dynamics`.
* `optimization.py` — the scoring of a simulation outcome, the grid
  sweep collecting near-post goals, the fallback pass collecting any
  goal, and the greedy diversity selection of at most three candidates.
  This layer is embedded over `ℚ` and is fully executable.
-/

namespace CornerKick

/-! ## Constants from `config.py` -/

/-- ball mass (kg) -/
def BALL_MASS : ℚ := 0.45

/-- ball radius (m) -/
def BALL_RADIUS : ℚ := 0.11

/-- gravitational acceleration (m/s^2) -/
def GRAVITY : ℚ := 9.81

/-- air density (kg/m^3) -/
def AIR_DENSITY : ℚ := 1.2

/-- drag coefficient -/
def DRAG_COEFFICIENT : ℚ := 0.33

/-- lift (Magnus) coefficient -/
def LIFT_COEFFICIENT : ℚ := 0.30

/-- field width (m) -/
def FIELD_WIDTH : ℚ := 68

/-- goal width (m) -/
def GOAL_WIDTH : ℚ := 7.32

/-- goal height (m) -/
def GOAL_HEIGHT : ℚ := 2.44

/-- target radius: twice the ball diameter -/
def TARGET_RADIUS : ℚ := 2 * (2 * BALL_RADIUS)

/-- minimum score separation between selected trajectories (s) -/
def MIN_TIME_DIFF : ℚ := 0.05

/-- simulation time horizon (s) -/
def MAX_TIME : ℚ := 7

/-- sampling time resolution (s) -/
def TIME_STEP : ℚ := 0.02

/-- cross-sectional area `π r²` (m²); irrational, so a real constant -/
noncomputable def BALL_AREA : ℝ := Real.pi * (BALL_RADIUS : ℝ) ^ 2

/-! ## Vectors and ball state (`soccer_physics.py`) -/

/-- A 3-vector of reals: forward (x), lateral (y), vertical (z). -/
structure Vec3 where
  x : ℝ
  y : ℝ
  z : ℝ

/-- Componentwise addition. -/
def vadd (a b : Vec3) : Vec3 := ⟨a.x + b.x, a.y + b.y, a.z + b.z⟩

/-- Componentwise subtraction. -/
def vsub (a b : Vec3) : Vec3 := ⟨a.x - b.x, a.y - b.y, a.z - b.z⟩

/-- Scalar multiple. -/
def vsmul (c : ℝ) (a : Vec3) : Vec3 := ⟨c * a.x, c * a.y, c * a.z⟩

/-- Cross product (`np.cross`). -/
def cross3 (a b : Vec3) : Vec3 :=
  ⟨a.y * b.z - a.z * b.y, a.z * b.x - a.x * b.z, a.x * b.y - a.y * b.x⟩

/-- Euclidean norm (`np.linalg.norm`). -/
noncomputable def norm3 (a : Vec3) : ℝ := Real.sqrt (a.x ^ 2 + a.y ^ 2 + a.z ^ 2)

/-- The 6-dimensional integrator state: position and velocity. -/
structure BallState where
  pos : Vec3
  vel : Vec3

noncomputable section

/-! ## Ball dynamics (`ball_dynamics` in `soccer_physics.py`) -/

/-- The constant gravitational acceleration vector `(0, 0, -GRAVITY)`. -/
def grav_acc : Vec3 := ⟨0, 0, -(GRAVITY : ℝ)⟩

/-- Drag acceleration
`-0.5 * AIR_DENSITY * BALL_AREA * DRAG_COEFFICIENT * v² * v_unit / BALL_MASS`
with `v_unit = vel / v`.  (In the source it is only evaluated under the
guard `v > 0`; the guard lives in `ball_dynamics` below.) -/
def drag_acc (vel : Vec3) : Vec3 :=
  vsmul (-(1 / 2) * (AIR_DENSITY : ℝ) * BALL_AREA * (DRAG_COEFFICIENT : ℝ)
          * (norm3 vel) ^ 2 / (BALL_MASS : ℝ))
    (vsmul (1 / norm3 vel) vel)

/-- Magnus acceleration: along the normalized cross product of velocity and
spin, magnitude `0.5 * AIR_DENSITY * BALL_AREA * LIFT_COEFFICIENT * v² / BALL_MASS`;
the zero vector when the cross product has zero norm. -/
def magnus_acc (vel omega : Vec3) : Vec3 :=
  let cross_val := cross3 vel omega
  if norm3 cross_val > 0 then
    vsmul ((1 / 2) * (AIR_DENSITY : ℝ) * BALL_AREA * (LIFT_COEFFICIENT : ℝ)
            * (norm3 vel) ^ 2 / (BALL_MASS : ℝ))
      (vsmul (1 / norm3 cross_val) cross_val)
  else ⟨0, 0, 0⟩

/-- The derivative of the state: `(velocity, acceleration)` where the
acceleration starts from gravity and, when the speed is positive, adds
drag and Magnus accelerations.  The time argument is unused, as in the
source. -/
def ball_dynamics (_t : ℝ) (omega : Vec3) (s : BallState) : BallState :=
  let v := norm3 s.vel
  if v > 0 then
    ⟨s.vel, vadd (vadd grav_acc (drag_acc s.vel)) (magnus_acc s.vel omega)⟩
  else
    ⟨s.vel, grav_acc⟩

/-! ## Termination events -/

/-- The goal event `event_ball_goal` fires (returns 0) exactly when the
ball is at the goal line within the numerical tolerance and inside the
goal frame. -/
def goalPred (p : Vec3) : Prop :=
  |p.x| < 0.1 ∧ (|p.y| < (GOAL_WIDTH : ℝ) / 2 ∧ p.z < (GOAL_HEIGHT : ℝ) ∧ p.z > 0)

instance (p : Vec3) : Decidable (goalPred p) := by unfold goalPred; infer_instance

/-- The ground event `event_ball_ground` with `direction = -1`: the
vertical coordinate crosses zero downward between two consecutive
samples. -/
def groundFire (zprev znew : ℝ) : Prop := zprev ≥ 0 ∧ znew ≤ 0

instance (a b : ℝ) : Decidable (groundFire a b) := by unfold groundFire; infer_instance

/-- Walk the solution samples in order; stop at the first sample where a
terminal event fires.  Returns the retained samples (after the initial
one), the terminal sample, and whether the goal event (as opposed to the
ground event or the end of the horizon) caused termination. -/
def scanEvents : (ℝ × Vec3) → List (ℝ × Vec3) → List (ℝ × Vec3) × ((ℝ × Vec3) × Bool)
  | prev, [] => ([], (prev, false))
  | prev, cur :: rest =>
    if goalPred cur.2 then ([cur], (cur, true))
    else if groundFire prev.2.z cur.2.z then ([cur], (cur, false))
    else (cur :: (scanEvents cur rest).1, (scanEvents cur rest).2)

/-! ## Outcome classification (`simulate_corner_kick`) -/

/-- left goalpost base position -/
def left_post_position : Vec3 := ⟨0, -(GOAL_WIDTH : ℝ) / 2, 0⟩

/-- right goalpost base position -/
def right_post_position : Vec3 := ⟨0, (GOAL_WIDTH : ℝ) / 2, 0⟩

/-- goal center, half the goal height above the goal-line center -/
def goal_center : Vec3 := ⟨0, 0, (GOAL_HEIGHT : ℝ) / 2⟩

/-- Near the left post and on its inside (goal-center) side. -/
def is_near_left (gp : Vec3) : Prop :=
  norm3 (vsub gp left_post_position) ≤ (TARGET_RADIUS : ℝ) ∧ gp.y > -(GOAL_WIDTH : ℝ) / 2

instance (p : Vec3) : Decidable (is_near_left p) := by unfold is_near_left; infer_instance

/-- Near the right post and on its inside (goal-center) side. -/
def is_near_right (gp : Vec3) : Prop :=
  norm3 (vsub gp right_post_position) ≤ (TARGET_RADIUS : ℝ) ∧ gp.y < (GOAL_WIDTH : ℝ) / 2

instance (p : Vec3) : Decidable (is_near_right p) := by unfold is_near_right; infer_instance

/-- The classified result of one simulation run. -/
structure SimOutcome where
  traj : List (ℝ × Vec3)
  is_goal : Bool
  is_near_post : Bool
  flight_time : ℝ
  min_distance : ℝ
  terminal : ℝ × Vec3

/-- Classification of a run from its solution samples (the first sample is
the launch sample; events are only checked from the second sample on, as
the solver only detects crossings between steps).  Mirrors the tail of
`simulate_corner_kick`: `is_goal` is whether the goal event terminated
the run, `is_near_post` is decided at the last retained sample,
`flight_time` is the time of the last retained sample, and
`min_distance` is the minimum over all retained samples of the distance
to the goal center. -/
def runSim (first : ℝ × Vec3) (rest : List (ℝ × Vec3)) : SimOutcome :=
  let sc := scanEvents first rest
  let terminal := sc.2.1
  let isGoal := sc.2.2
  { traj := first :: sc.1
    is_goal := isGoal
    is_near_post :=
      if isGoal = true then
        if is_near_left terminal.2 ∨ is_near_right terminal.2 then true else false
      else false
    flight_time := terminal.1
    min_distance :=
      ((first :: sc.1).map (fun s => norm3 (vsub s.2 goal_center))).foldl min
        (norm3 (vsub first.2 goal_center))
    terminal := terminal }

/-! ## The concrete run: initial conditions and integration -/

/-- degrees to radians (`np.radians`) -/
def deg2rad (d : ℝ) : ℝ := d * Real.pi / 180

/-- Initial state: corner position `(0, -FIELD_WIDTH/2, 0)` and the
spherical decomposition of the initial speed. -/
def initState (ball_speed theta phi : ℝ) : BallState :=
  { pos := ⟨0, -(FIELD_WIDTH : ℝ) / 2, 0⟩
    vel := ⟨ball_speed * Real.cos (deg2rad theta) * Real.sin (deg2rad phi),
            ball_speed * Real.cos (deg2rad theta) * Real.cos (deg2rad phi),
            ball_speed * Real.sin (deg2rad theta)⟩ }

/-- number of sample points of the time grid `linspace(0, MAX_TIME, ·)` -/
def NUM_POINTS : ℕ := 350

/-- spacing of the uniform time grid from `0` to `MAX_TIME` -/
def STEP_H : ℝ := (MAX_TIME : ℝ) / ((NUM_POINTS : ℝ) - 1)

/-- One explicit integration step of size `STEP_H` following
`ball_dynamics` (the stand-in for the external adaptive solver). -/
def eulerStep (omega : Vec3) (t : ℝ) (s : BallState) : BallState :=
  let d := ball_dynamics t omega s
  { pos := vadd s.pos (vsmul STEP_H d.pos)
    vel := vadd s.vel (vsmul STEP_H d.vel) }

/-- The integrated state after `n` steps. -/
def eulerIter (omega : Vec3) (s0 : BallState) : ℕ → BallState
  | 0 => s0
  | n + 1 => eulerStep omega ((n : ℝ) * STEP_H) (eulerIter omega s0 n)

/-- The `i`-th solution sample `(time, position)`. -/
def sampleAt (omega : Vec3) (s0 : BallState) (i : ℕ) : ℝ × Vec3 :=
  ((i : ℝ) * STEP_H, (eulerIter omega s0 i).pos)

/-- The full simulation of one corner kick: integrate from the corner and
classify the outcome. -/
def simulate_corner_kick (ball_speed theta phi : ℝ) (omega : Vec3) : SimOutcome :=
  let s0 := initState ball_speed theta phi
  runSim (sampleAt omega s0 0)
    ((List.range (NUM_POINTS - 1)).map (fun i => sampleAt omega s0 (i + 1)))

end

/-! ## Scoring and search (`optimization.py`), over `ℚ` -/

/-- The scalar outcome fields consumed by `evaluate_kick`. -/
structure KickOutcome where
  is_goal : Bool
  is_near_post : Bool
  flight_time : ℚ
  min_distance : ℚ

/-- The score of one simulation outcome: `1000 + min_distance` when not a
goal, `500 + flight_time` when a goal but not near a post, and the bare
`flight_time` for a near-post goal. -/
def evaluate_kick (o : KickOutcome) : ℚ :=
  if o.is_goal = false then 1000 + o.min_distance
  else if o.is_near_post = false then 500 + o.flight_time
  else o.flight_time

/-- A grid point: `(speed, theta, phi, omega_z)`. -/
abbrev OptParams : Type := ℚ × ℚ × ℚ × ℚ

/-- A candidate `(score, params)` as stored by the sweep. -/
abbrev Cand : Type := ℚ × OptParams

/-- Ordering of candidates by score (`all_goal_trajectories.sort()`
orders primarily by the score component; claims depend only on the score
order, so ties are resolved by the stability of the sort here). -/
def candLE (a b : Cand) : Prop := a.1 ≤ b.1

instance : DecidableRel candLE := fun a b => inferInstanceAs (Decidable (a.1 ≤ b.1))

instance : IsTotal Cand candLE := ⟨fun a b => le_total a.1 b.1⟩

instance : IsTrans Cand candLE := ⟨fun _ _ _ h1 h2 => le_trans h1 h2⟩

/-- Sort the collected candidates ascending by score. -/
def sortCands (l : List Cand) : List Cand := l.insertionSort candLE

/-- Separation rule: the score differs from every already-selected score
by at least `MIN_TIME_DIFF`. -/
def sepOK (c : Cand) (sel : List Cand) : Bool :=
  sel.all (fun q => decide (MIN_TIME_DIFF ≤ |c.1 - q.1|))

/-- The pairwise separation property of the selected list. -/
def sepRel (a b : Cand) : Prop := MIN_TIME_DIFF ≤ |a.1 - b.1|

/-- The greedy scan over the remaining sorted candidates: append a
candidate when it is separated from everything selected so far, and stop
as soon as three are selected. -/
def selectLoop : List Cand → List Cand → List Cand
  | [], sel => sel
  | c :: rest, sel =>
    if sepOK c sel then
      if 3 ≤ (sel ++ [c]).length then sel ++ [c] else selectLoop rest (sel ++ [c])
    else
      if 3 ≤ sel.length then sel else selectLoop rest sel

/-- Selection from the sorted candidates: always take the best first,
greedily add separated candidates, and if fewer than three were found
relax the constraint and take the three lowest-score candidates. -/
def selectTrajectories (sorted : List Cand) : List Cand :=
  match sorted with
  | [] => []
  | best :: rest =>
    if (selectLoop rest [best]).length < 3 then sorted.take 3
    else selectLoop rest [best]

/-- The main sweep: collect every grid point whose score is below the
near-post threshold 500. -/
def firstPass (sim : OptParams → KickOutcome) (grid : List OptParams) : List Cand :=
  grid.filterMap (fun p =>
    if evaluate_kick (sim p) < 500 then some (evaluate_kick (sim p), p) else none)

/-- The fallback sweep over the same grid: collect every scored goal
regardless of post proximity, with score `500 + flight_time`. -/
def secondPass (sim : OptParams → KickOutcome) (grid : List OptParams) : List Cand :=
  grid.filterMap (fun p =>
    if (sim p).is_goal = true then some (500 + (sim p).flight_time, p) else none)

/-- The optimizer: the main sweep, the fallback sweep when the main sweep
found nothing, failure (`none`) when there is still nothing, and
otherwise sort, select, and return the parameters of the selected
trajectories. -/
def optimize_corner_kick_parameters (sim : OptParams → KickOutcome)
    (grid : List OptParams) : Option (List OptParams) :=
  if (firstPass sim grid).isEmpty then
    if (secondPass sim grid).isEmpty then none
    else some ((selectTrajectories (sortCands (secondPass sim grid))).map Prod.snd)
  else some ((selectTrajectories (sortCands (firstPass sim grid))).map Prod.snd)

/-- No termination event between two consecutive samples: the goal
predicate does not hold at the new sample and the vertical coordinate
does not cross zero downward. -/
def noEvent (prev cur : ℝ × Vec3) : Prop :=
  ¬ goalPred cur.2 ∧ ¬ groundFire prev.2.z cur.2.z

/-! ## Helper lemmas -/

theorem vadd_zero_vec (a : Vec3) : vadd a ⟨0, 0, 0⟩ = a := by
  simp [vadd]

theorem norm3_zero_vec : norm3 ⟨0, 0, 0⟩ = 0 := by
  simp [norm3, Real.sqrt_zero]

theorem cross3_zero_right (v : Vec3) : cross3 v ⟨0, 0, 0⟩ = ⟨0, 0, 0⟩ := by
  simp [cross3]

theorem magnus_acc_eq_zero {vel omega : Vec3} (hc : cross3 vel omega = ⟨0, 0, 0⟩) :
    magnus_acc vel omega = ⟨0, 0, 0⟩ := by
  unfold magnus_acc
  rw [hc]
  simp [norm3_zero_vec]

theorem ball_dynamics_pos_speed {t : ℝ} {omega : Vec3} {s : BallState}
    (hv : norm3 s.vel > 0) :
    ball_dynamics t omega s =
      ⟨s.vel, vadd (vadd grav_acc (drag_acc s.vel)) (magnus_acc s.vel omega)⟩ := by
  unfold ball_dynamics
  rw [if_pos hv]

/-! ## Claim theorems -/

/-- C8: for every state (and every time), a zero spin vector makes the
Magnus acceleration computed by the dynamics exactly the zero vector, so
the acceleration is gravity plus drag only (and gravity alone at zero
speed). -/
theorem zero_spin_no_magnus (t : ℝ) (s : BallState) :
    magnus_acc s.vel ⟨0, 0, 0⟩ = ⟨0, 0, 0⟩ ∧
    (norm3 s.vel > 0 →
      ball_dynamics t ⟨0, 0, 0⟩ s = ⟨s.vel, vadd grav_acc (drag_acc s.vel)⟩) ∧
    (¬ norm3 s.vel > 0 → ball_dynamics t ⟨0, 0, 0⟩ s = ⟨s.vel, grav_acc⟩) := by
  have hm : magnus_acc s.vel ⟨0, 0, 0⟩ = ⟨0, 0, 0⟩ :=
    magnus_acc_eq_zero (cross3_zero_right s.vel)
  refine ⟨hm, fun hv => ?_, fun hv => ?_⟩
  · rw [ball_dynamics_pos_speed hv, hm, vadd_zero_vec]
  · unfold ball_dynamics
    rw [if_neg hv]

/-- C8 witness: the zero-spin theorem applied at a concrete moving state. -/
theorem zero_spin_no_magnus_witness :
    norm3 (BallState.mk ⟨0, 0, 0⟩ ⟨3, 4, 0⟩).vel > 0 ∧
    ball_dynamics 0 ⟨0, 0, 0⟩ (BallState.mk ⟨0, 0, 0⟩ ⟨3, 4, 0⟩) =
      ⟨⟨3, 4, 0⟩, vadd grav_acc (drag_acc ⟨3, 4, 0⟩)⟩ := by
  have hv : norm3 (BallState.mk ⟨0, 0, 0⟩ ⟨3, 4, 0⟩).vel > 0 := by
    unfold norm3
    simp only []
    rw [show ((3 : ℝ) ^ 2 + 4 ^ 2 + 0 ^ 2) = 25 by norm_num]
    rw [show (25 : ℝ) = 5 ^ 2 by norm_num, Real.sqrt_sq (by norm_num)]
    norm_num
  exact ⟨hv, ((zero_spin_no_magnus 0 ⟨⟨0, 0, 0⟩, ⟨3, 4, 0⟩⟩).2.1 hv)⟩

/-- C7 helper: at zero velocity the dynamics skips the aerodynamic branch. -/
theorem ball_dynamics_zero_vel (t : ℝ) (omega : Vec3) (s : BallState)
    (h : s.vel = ⟨0, 0, 0⟩) :
    ball_dynamics t omega s = ⟨⟨0, 0, 0⟩, ⟨0, 0, -(GRAVITY : ℝ)⟩⟩ := by
  simp [ball_dynamics, h, norm3_zero_vec, grav_acc]

/-- C7 helper: with purely vertical spin and a purely vertical velocity,
one integration step leaves the lateral position and velocity unchanged. -/
theorem eulerStep_lateral (omega_z t : ℝ) (s : BallState)
    (hvx : s.vel.x = 0) (hvy : s.vel.y = 0) :
    (eulerStep ⟨0, 0, omega_z⟩ t s).vel.x = 0 ∧
    (eulerStep ⟨0, 0, omega_z⟩ t s).vel.y = 0 ∧
    (eulerStep ⟨0, 0, omega_z⟩ t s).pos.x = s.pos.x ∧
    (eulerStep ⟨0, 0, omega_z⟩ t s).pos.y = s.pos.y := by
  obtain ⟨⟨px, py, pz⟩, ⟨vx, vy, vz⟩⟩ := s
  simp only at hvx hvy
  subst hvx hvy
  have hc : cross3 (⟨0, 0, vz⟩ : Vec3) ⟨0, 0, omega_z⟩ = ⟨0, 0, 0⟩ := by
    simp [cross3]
  unfold eulerStep ball_dynamics
  dsimp only
  split_ifs with hv
  · rw [magnus_acc_eq_zero hc, vadd_zero_vec]
    simp [vadd, vsmul, drag_acc, grav_acc]
  · simp [vadd, vsmul, grav_acc]

/-- C7 helper: the lateral invariant propagated along the whole
integration. -/
theorem eulerIter_lateral (omega_z : ℝ) (s0 : BallState)
    (hvx : s0.vel.x = 0) (hvy : s0.vel.y = 0) (n : ℕ) :
    (eulerIter ⟨0, 0, omega_z⟩ s0 n).vel.x = 0 ∧
    (eulerIter ⟨0, 0, omega_z⟩ s0 n).vel.y = 0 ∧
    (eulerIter ⟨0, 0, omega_z⟩ s0 n).pos.x = s0.pos.x ∧
    (eulerIter ⟨0, 0, omega_z⟩ s0 n).pos.y = s0.pos.y := by
  induction n with
  | zero => exact ⟨hvx, hvy, rfl, rfl⟩
  | succ n ih =>
    have step := eulerStep_lateral omega_z ((n : ℝ) * STEP_H)
      (eulerIter ⟨0, 0, omega_z⟩ s0 n) ih.1 ih.2.1
    exact ⟨step.1, step.2.1, step.2.2.1.trans ih.2.2.1, step.2.2.2.trans ih.2.2.2⟩

/-- C7 helper: a point whose lateral coordinate sits at the field
boundary is far outside the goal mouth. -/
theorem goalPred_far_lateral (p : Vec3) (hy : p.y = -(FIELD_WIDTH : ℝ) / 2) :
    ¬ goalPred p := by
  intro hg
  have h2 := hg.2.1
  rw [hy] at h2
  unfold FIELD_WIDTH GOAL_WIDTH at h2
  rw [abs_lt] at h2
  have := h2.1
  norm_num at this

/-- C7 helper: when no sample satisfies the goal predicate, the event
scan never reports a goal. -/
theorem scanEvents_no_goal (l : List (ℝ × Vec3)) :
    ∀ prev, (∀ s ∈ l, ¬ goalPred s.2) → (scanEvents prev l).2.2 = false := by
  induction l with
  | nil => intro prev _; rfl
  | cons c rest ih =>
    intro prev h
    unfold scanEvents
    rw [if_neg (h c (by simp))]
    by_cases hgr : groundFire prev.2.z c.2.z
    · rw [if_pos hgr]
    · rw [if_neg hgr]
      exact ih c (fun s hs => h s (List.mem_cons_of_mem _ hs))

/-- The outcome's goal flag is the scan's goal flag. -/
theorem runSim_is_goal (f : ℝ × Vec3) (r : List (ℝ × Vec3)) :
    (runSim f r).is_goal = (scanEvents f r).2.2 := rfl

/-- The outcome's terminal sample is the scan's terminal sample. -/
theorem runSim_terminal (f : ℝ × Vec3) (r : List (ℝ × Vec3)) :
    (runSim f r).terminal = (scanEvents f r).2.1 := rfl

/-- C7 helper: a zero-speed kick never scores — the ball never leaves the
corner's lateral line. -/
theorem simulate_zero_speed_not_scored (theta phi omega_z : ℝ) :
    (simulate_corner_kick 0 theta phi ⟨0, 0, omega_z⟩).is_goal = false := by
  have hvx : (initState 0 theta phi).vel.x = 0 := by simp [initState]
  have hvy : (initState 0 theta phi).vel.y = 0 := by simp [initState]
  have hpy : (initState 0 theta phi).pos.y = -(FIELD_WIDTH : ℝ) / 2 := by
    simp [initState]
  rw [simulate_corner_kick, runSim_is_goal]
  apply scanEvents_no_goal
  intro s hs
  obtain ⟨i, _, rfl⟩ := List.mem_map.1 hs
  apply goalPred_far_lateral
  have h := eulerIter_lateral omega_z (initState 0 theta phi) hvx hvy (i + 1)
  calc (sampleAt ⟨0, 0, omega_z⟩ (initState 0 theta phi) (i + 1)).2.y
      = (eulerIter ⟨0, 0, omega_z⟩ (initState 0 theta phi) (i + 1)).pos.y := rfl
    _ = (initState 0 theta phi).pos.y := h.2.2.2
    _ = -(FIELD_WIDTH : ℝ) / 2 := hpy

/-- C7: at zero velocity the dynamics evaluates without division by zero
to the pure-gravity acceleration `(0, 0, -GRAVITY)`, the drag and Magnus
accelerations are zero, and a zero-speed kick produces a run with
`scored = false`. -/
theorem zero_velocity_run (t : ℝ) (omega : Vec3) (s : BallState)
    (h : s.vel = ⟨0, 0, 0⟩) :
    ball_dynamics t omega s = ⟨⟨0, 0, 0⟩, ⟨0, 0, -(GRAVITY : ℝ)⟩⟩ ∧
    drag_acc s.vel = ⟨0, 0, 0⟩ ∧
    magnus_acc s.vel omega = ⟨0, 0, 0⟩ ∧
    (∀ theta phi omega_z : ℝ,
      (simulate_corner_kick 0 theta phi ⟨0, 0, omega_z⟩).is_goal = false) := by
  refine ⟨ball_dynamics_zero_vel t omega s h, ?_, ?_, ?_⟩
  · rw [h]
    simp [drag_acc, vsmul]
  · rw [h]
    apply magnus_acc_eq_zero
    simp [cross3]
  · exact fun theta phi omega_z => simulate_zero_speed_not_scored theta phi omega_z

/-- C7 witness: the zero-velocity theorem at the corner rest state and a
concrete zero-speed kick. -/
theorem zero_velocity_run_witness :
    (BallState.mk ⟨0, -34, 0⟩ ⟨0, 0, 0⟩).vel = ⟨0, 0, 0⟩ ∧
    ball_dynamics 0 ⟨0, 0, -95⟩ (BallState.mk ⟨0, -34, 0⟩ ⟨0, 0, 0⟩) =
      ⟨⟨0, 0, 0⟩, ⟨0, 0, -(GRAVITY : ℝ)⟩⟩ ∧
    (simulate_corner_kick 0 20 25 ⟨0, 0, -95⟩).is_goal = false := by
  have h : (BallState.mk ⟨0, -34, 0⟩ ⟨0, 0, 0⟩).vel = ⟨0, 0, 0⟩ := rfl
  have main := zero_velocity_run 0 ⟨0, 0, -95⟩ ⟨⟨0, -34, 0⟩, ⟨0, 0, 0⟩⟩ h
  exact ⟨h, main.1, main.2.2.2 20 25 (-95)⟩

/-- C10: for every state whose velocity is parallel or anti-parallel to
the spin vector (zero cross product), the dynamics returns a Magnus
acceleration of exactly zero (no division by the zero norm), and at
positive speed the total acceleration is gravity plus drag. -/
theorem parallel_spin_no_magnus (t : ℝ) (omega : Vec3) (s : BallState)
    (hc : cross3 s.vel omega = ⟨0, 0, 0⟩) :
    magnus_acc s.vel omega = ⟨0, 0, 0⟩ ∧
    (norm3 s.vel > 0 →
      ball_dynamics t omega s = ⟨s.vel, vadd grav_acc (drag_acc s.vel)⟩) := by
  have hm := magnus_acc_eq_zero hc
  refine ⟨hm, fun hv => ?_⟩
  rw [ball_dynamics_pos_speed hv, hm, vadd_zero_vec]

/-- C10 witness: velocity `(1,0,0)` anti-parallel to spin `(-2,0,0)`. -/
theorem parallel_spin_no_magnus_witness :
    cross3 (BallState.mk ⟨0, 0, 0⟩ ⟨1, 0, 0⟩).vel ⟨-2, 0, 0⟩ = ⟨0, 0, 0⟩ ∧
    magnus_acc (BallState.mk ⟨0, 0, 0⟩ ⟨1, 0, 0⟩).vel ⟨-2, 0, 0⟩ = ⟨0, 0, 0⟩ := by
  have hc : cross3 (BallState.mk ⟨0, 0, 0⟩ ⟨1, 0, 0⟩).vel ⟨-2, 0, 0⟩ = ⟨0, 0, 0⟩ := by
    simp [cross3]
  exact ⟨hc, (parallel_spin_no_magnus 0 ⟨-2, 0, 0⟩ ⟨⟨0, 0, 0⟩, ⟨1, 0, 0⟩⟩ hc).1⟩

/-- C1 helper: when the scan reports a goal, its terminal sample
satisfies the goal-event predicate. -/
theorem scanEvents_goal_terminal (l : List (ℝ × Vec3)) :
    ∀ prev, (scanEvents prev l).2.2 = true → goalPred (scanEvents prev l).2.1.2 := by
  induction l with
  | nil =>
    intro prev h
    simp [scanEvents] at h
  | cons c rest ih =>
    intro prev h
    unfold scanEvents at h ⊢
    by_cases hg : goalPred c.2
    · rw [if_pos hg] at h ⊢
      exact hg
    · rw [if_neg hg] at h ⊢
      by_cases hgr : groundFire prev.2.z c.2.z
      · rw [if_pos hgr] at h
        simp at h
      · rw [if_neg hgr] at h ⊢
        exact ih c h

/-- The near-post flag of a run, written through the goal flag and the
terminal sample. -/
theorem runSim_near_post (f : ℝ × Vec3) (r : List (ℝ × Vec3)) :
    (runSim f r).is_near_post =
      if (runSim f r).is_goal = true then
        if is_near_left (runSim f r).terminal.2 ∨ is_near_right (runSim f r).terminal.2
          then true else false
      else false := rfl

/-- C1: whenever a run's scored flag is true, the terminal position on
the goal line is within the numerical tolerance of the goal plane and
strictly inside the goal mouth. -/
theorem scored_goal_frame (first : ℝ × Vec3) (rest : List (ℝ × Vec3))
    (h : (runSim first rest).is_goal = true) :
    |(runSim first rest).terminal.2.x| < 0.1 ∧
    |(runSim first rest).terminal.2.y| < (GOAL_WIDTH : ℝ) / 2 ∧
    0 < (runSim first rest).terminal.2.z ∧
    (runSim first rest).terminal.2.z < (GOAL_HEIGHT : ℝ) := by
  rw [runSim_is_goal] at h
  have hg := scanEvents_goal_terminal rest first h
  rw [runSim_terminal]
  exact ⟨hg.1, hg.2.1, hg.2.2.2, hg.2.2.1⟩

/-- C1 witness: a concrete two-sample run that scores through the middle
of the goal mouth. -/
theorem scored_goal_frame_witness :
    (runSim ((0 : ℝ), (⟨5, 0, 1⟩ : Vec3)) [((1 : ℝ), (⟨0, 0, 1⟩ : Vec3))]).is_goal = true ∧
    (|(runSim ((0 : ℝ), (⟨5, 0, 1⟩ : Vec3)) [((1 : ℝ), (⟨0, 0, 1⟩ : Vec3))]).terminal.2.x| < 0.1 ∧
     |(runSim ((0 : ℝ), (⟨5, 0, 1⟩ : Vec3)) [((1 : ℝ), (⟨0, 0, 1⟩ : Vec3))]).terminal.2.y| <
        (GOAL_WIDTH : ℝ) / 2 ∧
     0 < (runSim ((0 : ℝ), (⟨5, 0, 1⟩ : Vec3)) [((1 : ℝ), (⟨0, 0, 1⟩ : Vec3))]).terminal.2.z ∧
     (runSim ((0 : ℝ), (⟨5, 0, 1⟩ : Vec3)) [((1 : ℝ), (⟨0, 0, 1⟩ : Vec3))]).terminal.2.z <
        (GOAL_HEIGHT : ℝ)) := by
  have hg : goalPred ⟨0, 0, 1⟩ := by
    unfold goalPred GOAL_WIDTH GOAL_HEIGHT
    norm_num
  have h : (runSim ((0 : ℝ), (⟨5, 0, 1⟩ : Vec3)) [((1 : ℝ), (⟨0, 0, 1⟩ : Vec3))]).is_goal
      = true := by
    rw [runSim_is_goal]
    unfold scanEvents
    rw [if_pos hg]
  exact ⟨h, scored_goal_frame _ _ h⟩

/-- C2: whenever a run's near-post flag is true, the run scored, and the
goal-line crossing point is within `TARGET_RADIUS` of one goalpost base
(3D distance) while lying on the inside (goal-center) side of that post. -/
theorem near_post_implies_scored_near (first : ℝ × Vec3) (rest : List (ℝ × Vec3))
    (h : (runSim first rest).is_near_post = true) :
    (runSim first rest).is_goal = true ∧
    ((norm3 (vsub (runSim first rest).terminal.2 left_post_position) ≤ (TARGET_RADIUS : ℝ) ∧
        (runSim first rest).terminal.2.y > -(GOAL_WIDTH : ℝ) / 2) ∨
     (norm3 (vsub (runSim first rest).terminal.2 right_post_position) ≤ (TARGET_RADIUS : ℝ) ∧
        (runSim first rest).terminal.2.y < (GOAL_WIDTH : ℝ) / 2)) := by
  rw [runSim_near_post] at h
  by_cases h1 : (runSim first rest).is_goal = true
  · rw [if_pos h1] at h
    refine ⟨h1, ?_⟩
    by_cases h2 : is_near_left (runSim first rest).terminal.2 ∨
        is_near_right (runSim first rest).terminal.2
    · exact h2
    · rw [if_neg h2] at h
      exact absurd h (by simp)
  · rw [if_neg h1] at h
    exact absurd h (by simp)

/-- C2 witness: a run scoring just inside the left post. -/
theorem near_post_implies_scored_near_witness :
    (runSim ((0 : ℝ), (⟨5, -3.5, 0.2⟩ : Vec3))
        [((1 : ℝ), (⟨0, -3.5, 0.2⟩ : Vec3))]).is_near_post = true ∧
    ((runSim ((0 : ℝ), (⟨5, -3.5, 0.2⟩ : Vec3))
        [((1 : ℝ), (⟨0, -3.5, 0.2⟩ : Vec3))]).is_goal = true ∧
     ((norm3 (vsub (runSim ((0 : ℝ), (⟨5, -3.5, 0.2⟩ : Vec3))
          [((1 : ℝ), (⟨0, -3.5, 0.2⟩ : Vec3))]).terminal.2 left_post_position) ≤
          (TARGET_RADIUS : ℝ) ∧
        (runSim ((0 : ℝ), (⟨5, -3.5, 0.2⟩ : Vec3))
          [((1 : ℝ), (⟨0, -3.5, 0.2⟩ : Vec3))]).terminal.2.y > -(GOAL_WIDTH : ℝ) / 2) ∨
      (norm3 (vsub (runSim ((0 : ℝ), (⟨5, -3.5, 0.2⟩ : Vec3))
          [((1 : ℝ), (⟨0, -3.5, 0.2⟩ : Vec3))]).terminal.2 right_post_position) ≤
          (TARGET_RADIUS : ℝ) ∧
        (runSim ((0 : ℝ), (⟨5, -3.5, 0.2⟩ : Vec3))
          [((1 : ℝ), (⟨0, -3.5, 0.2⟩ : Vec3))]).terminal.2.y < (GOAL_WIDTH : ℝ) / 2))) := by
  have hgoal : goalPred ⟨0, -3.5, 0.2⟩ := by
    unfold goalPred GOAL_WIDTH GOAL_HEIGHT
    norm_num [abs_lt]
  have hnl : is_near_left ⟨0, -3.5, 0.2⟩ := by
    unfold is_near_left left_post_position TARGET_RADIUS BALL_RADIUS GOAL_WIDTH
    constructor
    · unfold norm3 vsub
      rw [Real.sqrt_le_iff]
      constructor <;> norm_num
    · norm_num
  have hscan : scanEvents ((0 : ℝ), (⟨5, -3.5, 0.2⟩ : Vec3))
      [((1 : ℝ), (⟨0, -3.5, 0.2⟩ : Vec3))] =
      ([((1 : ℝ), (⟨0, -3.5, 0.2⟩ : Vec3))],
        (((1 : ℝ), (⟨0, -3.5, 0.2⟩ : Vec3)), true)) := by
    unfold scanEvents
    rw [if_pos hgoal]
  have hnp : (runSim ((0 : ℝ), (⟨5, -3.5, 0.2⟩ : Vec3))
      [((1 : ℝ), (⟨0, -3.5, 0.2⟩ : Vec3))]).is_near_post = true := by
    rw [runSim_near_post, runSim_is_goal, runSim_terminal, hscan]
    simp [hnl]
  exact ⟨hnp, near_post_implies_scored_near _ _ hnp⟩

/-- C9: the ground event fires only on a downward crossing of the
vertical coordinate through zero, so a run launched at height zero while
ascending does not terminate at the first step: the scan proceeds into
the remaining samples. -/
theorem ground_event_downward_only (prev cur : Vec3) (hup : 0 < cur.z)
    (t0 t1 : ℝ) (p0 p1 : Vec3) (rest : List (ℝ × Vec3))
    (_h0 : p0.z = 0) (h1 : 0 < p1.z) (hg : ¬ goalPred p1) :
    ¬ groundFire prev.z cur.z ∧
    scanEvents (t0, p0) ((t1, p1) :: rest) =
      ((t1, p1) :: (scanEvents (t1, p1) rest).1, (scanEvents (t1, p1) rest).2) := by
  constructor
  · intro hgf
    exact absurd hgf.2 (not_le.2 hup)
  · simp only [scanEvents]
    rw [if_neg hg, if_neg (show ¬ groundFire (t0, p0).2.z (t1, p1).2.z from
      fun hgf => absurd hgf.2 (not_le.2 h1))]

/-- C9 witness: a launch from the corner at height zero, ascending. -/
theorem ground_event_downward_only_witness :
    ¬ groundFire (Vec3.mk 0 0 0).z (Vec3.mk 0 0 1).z ∧
    scanEvents ((0 : ℝ), (⟨0, -34, 0⟩ : Vec3)) [((0.02 : ℝ), (⟨0, -34, 0.5⟩ : Vec3))] =
      (((0.02 : ℝ), (⟨0, -34, 0.5⟩ : Vec3)) ::
          (scanEvents ((0.02 : ℝ), (⟨0, -34, 0.5⟩ : Vec3)) []).1,
        (scanEvents ((0.02 : ℝ), (⟨0, -34, 0.5⟩ : Vec3)) []).2) := by
  have hg : ¬ goalPred ⟨0, -34, 0.5⟩ := by
    unfold goalPred GOAL_WIDTH GOAL_HEIGHT
    intro hx
    have := hx.2.1
    rw [abs_lt] at this
    have h34 := this.1
    norm_num at h34
  exact ground_event_downward_only ⟨0, 0, 0⟩ ⟨0, 0, 1⟩ (by norm_num) 0 0.02
    ⟨0, -34, 0⟩ ⟨0, -34, 0.5⟩ [] rfl (by norm_num) hg

/-- C4 helper: the terminal sample is either the launch sample or one of
the later solution samples. -/
theorem scanEvents_terminal_mem (l : List (ℝ × Vec3)) :
    ∀ prev, (scanEvents prev l).2.1 = prev ∨ (scanEvents prev l).2.1 ∈ l := by
  induction l with
  | nil => intro prev; left; rfl
  | cons c rest ih =>
    intro prev
    unfold scanEvents
    by_cases hg : goalPred c.2
    · rw [if_pos hg]
      right
      exact List.mem_cons_self _ _
    · rw [if_neg hg]
      by_cases hgr : groundFire prev.2.z c.2.z
      · rw [if_pos hgr]
        right
        exact List.mem_cons_self _ _
      · rw [if_neg hgr]
        dsimp only
        rcases ih c with h | h
        · right
          rw [h]
          exact List.mem_cons_self _ _
        · right
          exact List.mem_cons_of_mem _ h

/-- C4 helper: a fold of `min` over nonnegative values from a nonnegative
seed stays nonnegative. -/
theorem foldl_min_nonneg (l : List ℝ) :
    ∀ a : ℝ, 0 ≤ a → (∀ x ∈ l, 0 ≤ x) → 0 ≤ l.foldl min a := by
  induction l with
  | nil => intro a ha _; exact ha
  | cons c rest ih =>
    intro a ha h
    exact ih (min a c) (le_min ha (h c (List.mem_cons_self _ _)))
      (fun x hx => h x (List.mem_cons_of_mem _ hx))

/-- The outcome's flight time is the time of the terminal sample. -/
theorem runSim_flight_time (f : ℝ × Vec3) (r : List (ℝ × Vec3)) :
    (runSim f r).flight_time = (runSim f r).terminal.1 := rfl

/-- The outcome's minimum distance, unfolded. -/
theorem runSim_min_distance (f : ℝ × Vec3) (r : List (ℝ × Vec3)) :
    (runSim f r).min_distance =
      ((f :: (scanEvents f r).1).map (fun s => norm3 (vsub s.2 goal_center))).foldl min
        (norm3 (vsub f.2 goal_center)) := rfl

/-- C4 helper: when no event fires between any two consecutive samples,
the scan retains every sample and reports no goal, terminating at the
last sample of the grid. -/
theorem scanEvents_no_event (l : List (ℝ × Vec3)) :
    ∀ prev, List.Chain' noEvent (prev :: l) →
      scanEvents prev l = (l, ((prev :: l).getLast (List.cons_ne_nil _ _), false)) := by
  induction l with
  | nil => intro prev _; rfl
  | cons c rest ih =>
    intro prev hch
    rw [List.chain'_cons] at hch
    obtain ⟨⟨hg, hgr⟩, hch'⟩ := hch
    simp only [scanEvents]
    rw [if_neg hg, if_neg hgr, ih c hch']
    simp [List.getLast_cons]

/-- C4: for every run over a sample grid lying inside the time horizon
and ending exactly at the horizon, the run terminates within `MAX_TIME`
with a nonnegative minimum distance to goal center; when the goal event
fires, the flight time is the time of the goal-crossing sample, and when
no event fires at all, the run is non-scoring with flight time exactly
the horizon. -/
theorem run_bounded_and_classified (first : ℝ × Vec3) (rest : List (ℝ × Vec3))
    (hall : ∀ s ∈ first :: rest, s.1 ≤ (MAX_TIME : ℝ))
    (hlast : ((first :: rest).getLast (List.cons_ne_nil _ _)).1 = (MAX_TIME : ℝ)) :
    (runSim first rest).flight_time ≤ (MAX_TIME : ℝ) ∧
    0 ≤ (runSim first rest).min_distance ∧
    ((runSim first rest).is_goal = true →
      goalPred (runSim first rest).terminal.2 ∧
      (runSim first rest).flight_time = (runSim first rest).terminal.1) ∧
    (List.Chain' noEvent (first :: rest) →
      (runSim first rest).is_goal = false ∧
      (runSim first rest).flight_time = (MAX_TIME : ℝ)) := by
  refine ⟨?_, ?_, ?_, ?_⟩
  · rw [runSim_flight_time, runSim_terminal]
    rcases scanEvents_terminal_mem rest first with h | h
    · rw [h]
      exact hall first (List.mem_cons_self _ _)
    · exact hall _ (List.mem_cons_of_mem _ h)
  · rw [runSim_min_distance]
    apply foldl_min_nonneg
    · exact Real.sqrt_nonneg _
    · intro x hx
      obtain ⟨s, _, rfl⟩ := List.mem_map.1 hx
      exact Real.sqrt_nonneg _
  · intro h
    rw [runSim_is_goal] at h
    exact ⟨scanEvents_goal_terminal rest first h, runSim_flight_time first rest⟩
  · intro hch
    have hs := scanEvents_no_event rest first hch
    constructor
    · rw [runSim_is_goal, hs]
    · rw [runSim_flight_time, runSim_terminal, hs]
      exact hlast

/-- C4 witness: a two-sample eventless run whose grid ends at the
horizon. -/
theorem run_bounded_and_classified_witness :
    (runSim ((0 : ℝ), (⟨10, 0, 1⟩ : Vec3)) [((7 : ℝ), (⟨9, 0, 2⟩ : Vec3))]).flight_time ≤
        (MAX_TIME : ℝ) ∧
    0 ≤ (runSim ((0 : ℝ), (⟨10, 0, 1⟩ : Vec3)) [((7 : ℝ), (⟨9, 0, 2⟩ : Vec3))]).min_distance := by
  have main := run_bounded_and_classified ((0 : ℝ), (⟨10, 0, 1⟩ : Vec3))
    [((7 : ℝ), (⟨9, 0, 2⟩ : Vec3))]
    (by
      intro s hs
      unfold MAX_TIME
      rcases List.mem_cons.1 hs with h | h
      · rw [h]
        norm_num
      · rw [List.mem_singleton.1 h]
        norm_num)
    (by norm_num [MAX_TIME, List.getLast])
  exact ⟨main.1, main.2.1⟩

/-- C3: the score is `flightTime` for a near-post goal, `500 + flightTime`
for a goal away from the posts, and `1000 + minDistance` for a miss; with
flight times in `[0, MAX_TIME]` and a nonnegative distance, every
near-post score is strictly below every plain-goal score, which is
strictly below every non-scoring score. -/
theorem score_tiers (o1 o2 o3 : KickOutcome)
    (hg1 : o1.is_goal = true) (hn1 : o1.is_near_post = true)
    (hg2 : o2.is_goal = true) (hn2 : o2.is_near_post = false)
    (hg3 : o3.is_goal = false)
    (_hf1l : 0 ≤ o1.flight_time) (hf1u : o1.flight_time ≤ MAX_TIME)
    (hf2l : 0 ≤ o2.flight_time) (hf2u : o2.flight_time ≤ MAX_TIME)
    (hd3 : 0 ≤ o3.min_distance) :
    evaluate_kick o1 = o1.flight_time ∧
    evaluate_kick o2 = 500 + o2.flight_time ∧
    evaluate_kick o3 = 1000 + o3.min_distance ∧
    evaluate_kick o1 < evaluate_kick o2 ∧
    evaluate_kick o2 < evaluate_kick o3 := by
  have e1 : evaluate_kick o1 = o1.flight_time := by
    simp [evaluate_kick, hg1, hn1]
  have e2 : evaluate_kick o2 = 500 + o2.flight_time := by
    simp [evaluate_kick, hg2, hn2]
  have e3 : evaluate_kick o3 = 1000 + o3.min_distance := by
    simp [evaluate_kick, hg3]
  refine ⟨e1, e2, e3, ?_, ?_⟩
  · rw [e1, e2]
    unfold MAX_TIME at hf1u
    linarith
  · rw [e2, e3]
    unfold MAX_TIME at hf2u
    linarith

/-- C3 witness: the three tiers at concrete outcomes. -/
theorem score_tiers_witness :
    (0 : ℚ) ≤ 3 ∧
    evaluate_kick ⟨true, true, 3, 0⟩ < evaluate_kick ⟨true, false, 2, 0⟩ ∧
    evaluate_kick ⟨true, false, 2, 0⟩ < evaluate_kick ⟨false, false, 0, 1⟩ := by
  have main := score_tiers ⟨true, true, 3, 0⟩ ⟨true, false, 2, 0⟩ ⟨false, false, 0, 1⟩
    rfl rfl rfl rfl rfl (by norm_num) (by norm_num [MAX_TIME]) (by norm_num)
    (by norm_num [MAX_TIME]) (by norm_num)
  exact ⟨by norm_num, main.2.2.2.1, main.2.2.2.2⟩

/-- C6: when the main sweep finds no score below the near-post threshold
500, the candidate set is empty and the optimizer falls back to the
second pass collecting every scored goal at `500 + flightTime`; when the
second pass finds no goal either, the optimizer returns `none`, and when
it does find goals, the optimizer selects from exactly that collection. -/
theorem fallback_and_failure (sim : OptParams → KickOutcome) (grid : List OptParams)
    (h1 : ∀ p ∈ grid, ¬ evaluate_kick (sim p) < 500) :
    firstPass sim grid = [] ∧
    ((∀ p ∈ grid, (sim p).is_goal = false) →
      secondPass sim grid = [] ∧ optimize_corner_kick_parameters sim grid = none) ∧
    (secondPass sim grid ≠ [] →
      optimize_corner_kick_parameters sim grid =
        some ((selectTrajectories (sortCands (secondPass sim grid))).map Prod.snd)) := by
  have hfp : firstPass sim grid = [] := by
    unfold firstPass
    rw [List.filterMap_eq_nil_iff]
    intro p hp
    rw [if_neg (h1 p hp)]
  refine ⟨hfp, fun hgoals => ?_, fun hne => ?_⟩
  · have hsp : secondPass sim grid = [] := by
      unfold secondPass
      rw [List.filterMap_eq_nil_iff]
      intro p hp
      rw [if_neg (by simp [hgoals p hp])]
    refine ⟨hsp, ?_⟩
    unfold optimize_corner_kick_parameters
    rw [hfp, hsp]
    simp
  · unfold optimize_corner_kick_parameters
    rw [hfp]
    rw [if_pos (by simp)]
    rw [if_neg (by simp [hne])]

/-- C6 witness: a one-point grid where nothing ever scores. -/
theorem fallback_and_failure_witness :
    firstPass (fun _ => ⟨false, false, 0, 5⟩) [(1, 1, 1, 1)] = [] ∧
    secondPass (fun _ => ⟨false, false, 0, 5⟩) [(1, 1, 1, 1)] = [] ∧
    optimize_corner_kick_parameters (fun _ => ⟨false, false, 0, 5⟩) [(1, 1, 1, 1)] = none := by
  have main := fallback_and_failure (fun _ => ⟨false, false, 0, 5⟩) [(1, 1, 1, 1)]
    (by
      intro p _
      norm_num [evaluate_kick])
  have h2 := main.2.1 (by intro p _; rfl)
  exact ⟨main.1, h2.1, h2.2⟩

/-- C5 helper: the greedy scan only ever appends after the already
selected prefix, and what it appends is a subsequence of the remaining
candidates. -/
theorem selectLoop_eq_append (rest : List Cand) :
    ∀ sel, ∃ sub, selectLoop rest sel = sel ++ sub ∧ sub.Sublist rest := by
  induction rest with
  | nil =>
    intro sel
    exact ⟨[], by simp [selectLoop], List.nil_sublist _⟩
  | cons c rs ih =>
    intro sel
    unfold selectLoop
    by_cases hsep : sepOK c sel = true
    · rw [if_pos hsep]
      by_cases hlen : 3 ≤ (sel ++ [c]).length
      · rw [if_pos hlen]
        exact ⟨[c], rfl, (List.nil_sublist rs).cons_cons c⟩
      · rw [if_neg hlen]
        obtain ⟨sub, h1, h2⟩ := ih (sel ++ [c])
        refine ⟨c :: sub, ?_, h2.cons_cons c⟩
        rw [h1, List.append_assoc]
        rfl
    · rw [if_neg hsep]
      by_cases hlen : 3 ≤ sel.length
      · rw [if_pos hlen]
        exact ⟨[], by simp, List.nil_sublist _⟩
      · rw [if_neg hlen]
        obtain ⟨sub, h1, h2⟩ := ih sel
        exact ⟨sub, h1, h2.cons c⟩

/-- C5 helper: starting below three selected, the greedy scan never
selects more than three. -/
theorem selectLoop_le_three (rest : List Cand) :
    ∀ sel, sel.length < 3 → (selectLoop rest sel).length ≤ 3 := by
  induction rest with
  | nil =>
    intro sel h
    unfold selectLoop
    omega
  | cons c rs ih =>
    intro sel h
    unfold selectLoop
    by_cases hsep : sepOK c sel = true
    · rw [if_pos hsep]
      by_cases hlen : 3 ≤ (sel ++ [c]).length
      · rw [if_pos hlen]
        simp only [List.length_append, List.length_cons, List.length_nil] at hlen ⊢
        omega
      · rw [if_neg hlen]
        apply ih
        simp only [List.length_append, List.length_cons, List.length_nil] at hlen ⊢
        omega
    · rw [if_neg hsep]
      by_cases hlen : 3 ≤ sel.length
      · rw [if_pos hlen]
        omega
      · rw [if_neg hlen]
        exact ih sel h

/-- C5 helper: the greedy scan preserves pairwise score separation of the
selected list. -/
theorem selectLoop_pairwise (rest : List Cand) :
    ∀ sel, List.Pairwise sepRel sel → List.Pairwise sepRel (selectLoop rest sel) := by
  induction rest with
  | nil => intro sel h; exact h
  | cons c rs ih =>
    intro sel h
    unfold selectLoop
    by_cases hsep : sepOK c sel = true
    · have hall : ∀ q ∈ sel, sepRel q c := by
        intro q hq
        unfold sepOK at hsep
        have hd := List.all_eq_true.1 hsep q hq
        rw [decide_eq_true_eq] at hd
        unfold sepRel
        rw [abs_sub_comm]
        exact hd
      have hp : List.Pairwise sepRel (sel ++ [c]) := by
        rw [List.pairwise_append]
        refine ⟨h, List.pairwise_singleton _ _, fun a ha b hb => ?_⟩
        rw [List.mem_singleton.1 hb]
        exact hall a ha
      rw [if_pos hsep]
      by_cases hlen : 3 ≤ (sel ++ [c]).length
      · rw [if_pos hlen]
        exact hp
      · rw [if_neg hlen]
        exact ih _ hp
    · rw [if_neg hsep]
      by_cases hlen : 3 ≤ sel.length
      · rw [if_pos hlen]
        exact h
      · rw [if_neg hlen]
        exact ih _ h

/-- C5: the final selection from a nonempty candidate set is sorted
ascending by score, begins with a minimum-score candidate, has between
one and three entries, and either every pair of selected entries is
separated by at least `MIN_TIME_DIFF` or the separation constraint was
relaxed and the selection is the three lowest-score candidates. -/
theorem selection_properties (l : List Cand) (h : l ≠ []) :
    ∃ b rest, sortCands l = b :: rest ∧
      (selectTrajectories (sortCands l)).head? = some b ∧
      List.Sorted candLE (selectTrajectories (sortCands l)) ∧
      1 ≤ (selectTrajectories (sortCands l)).length ∧
      (selectTrajectories (sortCands l)).length ≤ 3 ∧
      (∀ c ∈ l, b.1 ≤ c.1) ∧
      (List.Pairwise sepRel (selectTrajectories (sortCands l)) ∨
        selectTrajectories (sortCands l) = (sortCands l).take 3) := by
  have hperm : (sortCands l).Perm l := List.perm_insertionSort candLE l
  have hsorted : List.Sorted candLE (sortCands l) := List.sorted_insertionSort candLE l
  have hne : sortCands l ≠ [] := by
    intro hnil
    exact h (List.Perm.eq_nil ((hnil ▸ hperm).symm))
  obtain ⟨b, rest, heq⟩ := List.exists_cons_of_ne_nil hne
  refine ⟨b, rest, heq, ?_⟩
  have hsorted' : List.Sorted candLE (b :: rest) := heq ▸ hsorted
  have hmin : ∀ c ∈ l, b.1 ≤ c.1 := by
    intro c hc
    have hc' : c ∈ b :: rest := heq ▸ hperm.symm.subset hc
    rcases List.mem_cons.1 hc' with hcb | hcr
    · rw [hcb]
    · exact List.rel_of_sorted_cons hsorted' c hcr
  have hsel : selectTrajectories (b :: rest) =
      if (selectLoop rest [b]).length < 3 then (b :: rest).take 3
      else selectLoop rest [b] := rfl
  rw [heq, hsel]
  by_cases hrelax : (selectLoop rest [b]).length < 3
  · rw [if_pos hrelax]
    refine ⟨?_, ?_, ?_, ?_, hmin, Or.inr rfl⟩
    · rfl
    · exact hsorted'.sublist (List.take_sublist 3 _)
    · simp
    · simp only [List.length_take]
      omega
  · rw [if_neg hrelax]
    obtain ⟨sub, hl1, hl2⟩ := selectLoop_eq_append rest [b]
    refine ⟨?_, ?_, ?_, ?_, hmin, Or.inl ?_⟩
    · rw [hl1]
      rfl
    · refine hsorted'.sublist ?_
      rw [hl1]
      exact (hl2.cons_cons b : ([b] ++ sub).Sublist (b :: rest))
    · rw [hl1]
      simp
    · exact selectLoop_le_three rest [b] (by simp)
    · exact selectLoop_pairwise rest [b] (List.pairwise_singleton _ _)

/-- C5 witness: a concrete two-candidate set. -/
theorem selection_properties_witness :
    ([((1 : ℚ), ((20 : ℚ), (10 : ℚ), (5 : ℚ), (-120 : ℚ))),
      ((2 : ℚ), ((25 : ℚ), (12 : ℚ), (6 : ℚ), (-110 : ℚ)))] : List Cand) ≠ [] ∧
    (∃ b rest,
      sortCands [((1 : ℚ), ((20 : ℚ), (10 : ℚ), (5 : ℚ), (-120 : ℚ))),
          ((2 : ℚ), ((25 : ℚ), (12 : ℚ), (6 : ℚ), (-110 : ℚ)))] = b :: rest ∧
      (selectTrajectories (sortCands [((1 : ℚ), ((20 : ℚ), (10 : ℚ), (5 : ℚ), (-120 : ℚ))),
          ((2 : ℚ), ((25 : ℚ), (12 : ℚ), (6 : ℚ), (-110 : ℚ)))])).head? = some b ∧
      List.Sorted candLE (selectTrajectories
        (sortCands [((1 : ℚ), ((20 : ℚ), (10 : ℚ), (5 : ℚ), (-120 : ℚ))),
          ((2 : ℚ), ((25 : ℚ), (12 : ℚ), (6 : ℚ), (-110 : ℚ)))])) ∧
      1 ≤ (selectTrajectories (sortCands [((1 : ℚ), ((20 : ℚ), (10 : ℚ), (5 : ℚ), (-120 : ℚ))),
          ((2 : ℚ), ((25 : ℚ), (12 : ℚ), (6 : ℚ), (-110 : ℚ)))])).length ∧
      (selectTrajectories (sortCands [((1 : ℚ), ((20 : ℚ), (10 : ℚ), (5 : ℚ), (-120 : ℚ))),
          ((2 : ℚ), ((25 : ℚ), (12 : ℚ), (6 : ℚ), (-110 : ℚ)))])).length ≤ 3 ∧
      (∀ c ∈ ([((1 : ℚ), ((20 : ℚ), (10 : ℚ), (5 : ℚ), (-120 : ℚ))),
          ((2 : ℚ), ((25 : ℚ), (12 : ℚ), (6 : ℚ), (-110 : ℚ)))] : List Cand), b.1 ≤ c.1) ∧
      (List.Pairwise sepRel (selectTrajectories
          (sortCands [((1 : ℚ), ((20 : ℚ), (10 : ℚ), (5 : ℚ), (-120 : ℚ))),
            ((2 : ℚ), ((25 : ℚ), (12 : ℚ), (6 : ℚ), (-110 : ℚ)))])) ∨
        selectTrajectories (sortCands [((1 : ℚ), ((20 : ℚ), (10 : ℚ), (5 : ℚ), (-120 : ℚ))),
            ((2 : ℚ), ((25 : ℚ), (12 : ℚ), (6 : ℚ), (-110 : ℚ)))]) =
          (sortCands [((1 : ℚ), ((20 : ℚ), (10 : ℚ), (5 : ℚ), (-120 : ℚ))),
            ((2 : ℚ), ((25 : ℚ), (12 : ℚ), (6 : ℚ), (-110 : ℚ)))]).take 3)) := by
  constructor
  · simp
  · exact selection_properties _ (by simp)

end CornerKick
